import Mathlib

/-!
Verification of the Conway's Game of Life implementation (`game_of_life.c`).

The C program is shallowly embedded: the grid of `cell_state_t **` becomes a
total function `Nat → Nat → cell_state_t` together with the `rows`/`cols`
fields of the context structure; the in-place mark/commit loops of
`simulate_step` become left folds over the row-major list of cell indices;
machine-integer casts (`size_t → int`, `int → size_t`) are modelled
explicitly on `Int`/`Nat`.
-/

set_option maxHeartbeats 1000000

/-- Cell states, mirroring the `cell_state_t` enum of the C source. -/
inductive cell_state_t where
  | CELL_DEAD
  | CELL_ALIVE
  | CELL_DYING
  | CELL_BIRTH
deriving DecidableEq, Repr

export cell_state_t (CELL_DEAD CELL_ALIVE CELL_DYING CELL_BIRTH)

/-- Return codes, mirroring the `gol_result_t` enum of the C source. -/
inductive gol_result_t where
  | GOL_SUCCESS
  | GOL_ERROR_ARGS
  | GOL_ERROR_FILE
  | GOL_ERROR_CONFIG
  | GOL_ERROR_SDL
  | GOL_ERROR_MEMORY
deriving DecidableEq, Repr

export gol_result_t (GOL_SUCCESS GOL_ERROR_ARGS GOL_ERROR_FILE GOL_ERROR_CONFIG GOL_ERROR_SDL GOL_ERROR_MEMORY)

/-- Numeric value of each `gol_result_t` enumerator, as assigned in the C enum
(`GOL_SUCCESS = 0`, ..., `GOL_ERROR_MEMORY = 5`); this is the process exit code. -/
def gol_result_code : gol_result_t → Nat
  | GOL_SUCCESS => 0
  | GOL_ERROR_ARGS => 1
  | GOL_ERROR_FILE => 2
  | GOL_ERROR_CONFIG => 3
  | GOL_ERROR_SDL => 4
  | GOL_ERROR_MEMORY => 5

/-- Configuration constant `CELL_SIZE` (pixels per cell). -/
def CELL_SIZE : Nat := 8

/-- Configuration constant `NEIGHBORS_TO_BIRTH`. -/
def NEIGHBORS_TO_BIRTH : Nat := 3

/-- Configuration constant `MIN_NEIGHBORS_TO_SURVIVE`. -/
def MIN_NEIGHBORS_TO_SURVIVE : Nat := 2

/-- Configuration constant `MAX_NEIGHBORS_TO_SURVIVE`. -/
def MAX_NEIGHBORS_TO_SURVIVE : Nat := 3

/-- Configuration key `CONFIG_RANDOM`. -/
def CONFIG_RANDOM : String := "random"

/-- Configuration key `CONFIG_MANUAL`. -/
def CONFIG_MANUAL : String := "manual"

/-- `gol_config_t`: parsed configuration.  `rows`/`cols` are `size_t`,
`steps`/`seed` are `unsigned int`; both are modelled as `Nat`. -/
structure gol_config_t where
  rows : Nat
  cols : Nat
  steps : Nat
  seed : Nat
  config_type : String
deriving Repr

/-- `gol_context_t`: game context.  The row-pointer array `cell_state_t **grid`
is modelled as a total function; only indices below `rows`/`cols` correspond to
real memory, and all embedded operations touch only those. -/
structure gol_context_t where
  rows : Nat
  cols : Nat
  grid : Nat → Nat → cell_state_t
  config : gol_config_t

/-- Value of a `size_t` expression after conversion to C `int`
(conversion is modelled as the usual two's-complement wrap on 32 bits). -/
def size_to_int (n : Nat) : Int :=
  let m : Nat := n % 2 ^ 32
  if m < 2 ^ 31 then (m : Int) else (m : Int) - 2 ^ 32

/-- Largest value representable in a C `int`. -/
def INT_MAX : Nat := 2 ^ 31 - 1

/-- `is_valid_position`: bounds check with coordinates as signed `int`;
`ctx->rows` / `ctx->cols` are `size_t` values cast to `int` for the comparison. -/
def is_valid_position (ctx : gol_context_t) (row col : Int) : Bool :=
  decide (0 ≤ row ∧ row < size_to_int ctx.rows ∧ 0 ≤ col ∧ col < size_to_int ctx.cols)

/-- The condition under which `count_neighbors` counts a cell:
`state == CELL_ALIVE || state == CELL_DYING`. -/
def counts_as_neighbor (s : cell_state_t) : Bool :=
  decide (s = CELL_ALIVE) || decide (s = CELL_DYING)

/-- The offsets `(dr, dc)` enumerated by the two nested `for` loops of
`count_neighbors`, in loop order (the `(0,0)` skip is kept in the body). -/
def neighbor_deltas : List (Int × Int) :=
  [(-1, -1), (-1, 0), (-1, 1), (0, -1), (0, 0), (0, 1), (1, -1), (1, 0), (1, 1)]

/-- `count_neighbors`: count of Moore neighbors in state `CELL_ALIVE` or
`CELL_DYING`, with `(int)row + dr` / `(int)col + dc` bounds-checked by
`is_valid_position` before the grid is read. -/
def count_neighbors (ctx : gol_context_t) (row col : Nat) : Nat :=
  neighbor_deltas.foldl
    (fun count d =>
      if d.1 = 0 ∧ d.2 = 0 then count
      else
        let nr : Int := size_to_int row + d.1
        let nc : Int := size_to_int col + d.2
        if is_valid_position ctx nr nc then
          if counts_as_neighbor (ctx.grid nr.toNat nc.toNat) then count + 1 else count
        else count)
    0

/-- A grid is at rest when every in-bounds cell is `CELL_DEAD` or `CELL_ALIVE`
(no transient `CELL_DYING`/`CELL_BIRTH` marks). -/
def atRest (ctx : gol_context_t) : Prop :=
  ∀ i, i < ctx.rows → ∀ j, j < ctx.cols →
    ctx.grid i j = CELL_DEAD ∨ ctx.grid i j = CELL_ALIVE

instance (ctx : gol_context_t) : Decidable (atRest ctx) := by
  unfold atRest; infer_instance

/-- Functional update of one grid cell (a write through `ctx->grid[r][c]`). -/
def setCell (g : Nat → Nat → cell_state_t) (r c : Nat) (s : cell_state_t) :
    Nat → Nat → cell_state_t :=
  fun i j => if i = r ∧ j = c then s else g i j

/-- Row-major list of all in-bounds cell indices, the iteration space of the
nested `for (i) for (j)` loops. -/
def cellIndices (rows cols : Nat) : List (Nat × Nat) :=
  (List.range rows).flatMap (fun i => (List.range cols).map (fun j => (i, j)))

/-- Mark-phase body of `simulate_step` for one cell: an `CELL_ALIVE` cell with
a neighbor count outside the survival window is marked `CELL_DYING`, a
`CELL_DEAD` cell with exactly `NEIGHBORS_TO_BIRTH` neighbors is marked
`CELL_BIRTH`, every other cell is left as it is. -/
def mark_cell (ctx : gol_context_t) (i j : Nat) : gol_context_t :=
  let neighbors := count_neighbors ctx i j
  match ctx.grid i j with
  | CELL_ALIVE =>
      if neighbors < MIN_NEIGHBORS_TO_SURVIVE ∨ neighbors > MAX_NEIGHBORS_TO_SURVIVE then
        { ctx with grid := setCell ctx.grid i j CELL_DYING }
      else ctx
  | CELL_DEAD =>
      if neighbors = NEIGHBORS_TO_BIRTH then
        { ctx with grid := setCell ctx.grid i j CELL_BIRTH }
      else ctx
  | _ => ctx

/-- The state the mark phase leaves at a cell, computed from a snapshot. -/
def mark_value (ctx : gol_context_t) (i j : Nat) : cell_state_t :=
  let neighbors := count_neighbors ctx i j
  match ctx.grid i j with
  | CELL_ALIVE =>
      if neighbors < MIN_NEIGHBORS_TO_SURVIVE ∨ neighbors > MAX_NEIGHBORS_TO_SURVIVE then
        CELL_DYING
      else CELL_ALIVE
  | CELL_DEAD =>
      if neighbors = NEIGHBORS_TO_BIRTH then CELL_BIRTH else CELL_DEAD
  | s => s

/-- Commit-phase body of `simulate_step` for one cell:
`CELL_DYING → CELL_DEAD`, `CELL_BIRTH → CELL_ALIVE`, anything else untouched. -/
def commit_cell_at (ctx : gol_context_t) (i j : Nat) : gol_context_t :=
  if ctx.grid i j = CELL_DYING then { ctx with grid := setCell ctx.grid i j CELL_DEAD }
  else if ctx.grid i j = CELL_BIRTH then { ctx with grid := setCell ctx.grid i j CELL_ALIVE }
  else ctx

/-- The state the commit phase leaves at a cell holding state `s`. -/
def commit_result : cell_state_t → cell_state_t
  | CELL_DYING => CELL_DEAD
  | CELL_BIRTH => CELL_ALIVE
  | s => s

/-- The mark phase run over an explicit visitation order. -/
def mark_phase_order (l : List (Nat × Nat)) (ctx : gol_context_t) : gol_context_t :=
  l.foldl (fun c p => mark_cell c p.1 p.2) ctx

/-- The commit phase run over an explicit visitation order. -/
def commit_phase_order (l : List (Nat × Nat)) (ctx : gol_context_t) : gol_context_t :=
  l.foldl (fun c p => commit_cell_at c p.1 p.2) ctx

/-- `simulate_step`: the two in-place row-major passes of the C function —
mark every cell, then commit every mark. -/
def simulate_step (ctx : gol_context_t) : gol_context_t :=
  let marked := mark_phase_order (cellIndices ctx.rows ctx.cols) ctx
  commit_phase_order (cellIndices ctx.rows ctx.cols) marked

/-- Reference next-state function written from the spec's words: a `Dead` cell
with exactly 3 live neighbors becomes `Alive`; an `Alive` cell with 2 or 3 live
neighbors stays `Alive` and otherwise becomes `Dead`; a `Dead` cell with any
other count stays `Dead`; all counts taken on the pre-step snapshot `ctx`. -/
def reference_next (ctx : gol_context_t) (i j : Nat) : cell_state_t :=
  let n := count_neighbors ctx i j
  match ctx.grid i j with
  | CELL_DEAD => if n = 3 then CELL_ALIVE else CELL_DEAD
  | CELL_ALIVE => if n = 2 ∨ n = 3 then CELL_ALIVE else CELL_DEAD
  | s => s

/-- Reference step written from the spec's words: every in-bounds cell's next
state is computed from the immutable pre-step snapshot, all at once. -/
def reference_step (ctx : gol_context_t) : gol_context_t :=
  { ctx with grid := fun i j =>
      if i < ctx.rows ∧ j < ctx.cols then reference_next ctx i j else ctx.grid i j }

/-- The Step Engine run with an arbitrary mark-phase visitation order `l`
(the commit pass stays row-major, as in the C source). -/
def step_with_order (l : List (Nat × Nat)) (ctx : gol_context_t) : gol_context_t :=
  commit_phase_order (cellIndices ctx.rows ctx.cols) (mark_phase_order l ctx)

/-- The 8 Moore-neighborhood offsets of the claim:
all `(dr, dc) ∈ {-1,0,1}²` except `(0, 0)`. -/
def moore_deltas : List (Int × Int) :=
  [(-1, -1), (-1, 0), (-1, 1), (0, -1), (0, 1), (1, -1), (1, 0), (1, 1)]

/-- Spec-side neighbor count: the number of Moore-neighborhood offsets whose
position lies within `[0,rows) × [0,cols)` and whose cell is Alive or Dying. -/
def spec_neighbor_count (ctx : gol_context_t) (row col : Nat) : Nat :=
  moore_deltas.countP (fun d =>
    decide (0 ≤ (row : Int) + d.1 ∧ (row : Int) + d.1 < (ctx.rows : Int) ∧
      0 ≤ (col : Int) + d.2 ∧ (col : Int) + d.2 < (ctx.cols : Int)) &&
    counts_as_neighbor (ctx.grid ((row : Int) + d.1).toNat ((col : Int) + d.2).toNat))

/-- Contribution of one loop iteration of `count_neighbors` to the count. -/
def loop_flag (ctx : gol_context_t) (row col : Nat) (d : Int × Int) : Nat :=
  if d.1 = 0 ∧ d.2 = 0 then 0
  else if is_valid_position ctx (size_to_int row + d.1) (size_to_int col + d.2) then
    (if counts_as_neighbor
        (ctx.grid (size_to_int row + d.1).toNat (size_to_int col + d.2).toNat)
      then 1 else 0)
  else 0

/-- Spec-side indicator for one Moore offset. -/
def spec_flag (ctx : gol_context_t) (row col : Nat) (d : Int × Int) : Nat :=
  if (decide (0 ≤ (row : Int) + d.1 ∧ (row : Int) + d.1 < (ctx.rows : Int) ∧
        0 ≤ (col : Int) + d.2 ∧ (col : Int) + d.2 < (ctx.cols : Int)) &&
      counts_as_neighbor
        (ctx.grid ((row : Int) + d.1).toNat ((col : Int) + d.2).toNat))
    then 1 else 0

/-- `handle_mouse_click`: map the pixel coordinates to a cell by C `int`
division by `CELL_SIZE` (truncating toward zero) followed by the `size_t`
cast (wrap on 64 bits), and toggle that cell if it is inside the grid;
a click outside the grid does nothing. -/
def handle_mouse_click (ctx : gol_context_t) (x y : Int) : gol_context_t :=
  let col : Nat := ((Int.tdiv x (CELL_SIZE : Int)) % (2 ^ 64 : Int)).toNat
  let row : Nat := ((Int.tdiv y (CELL_SIZE : Int)) % (2 ^ 64 : Int)).toNat
  if row < ctx.rows ∧ col < ctx.cols then
    let s := if ctx.grid row col = CELL_ALIVE then CELL_DEAD else CELL_ALIVE
    { ctx with grid := setCell ctx.grid row col s }
  else ctx

/-- `initialize_grid_random`: resolve the seed (`0` means the current wall
clock), seed the generator (`srand`), then overwrite every cell row-major with
`CELL_ALIVE` when `rand() % 2` is nonzero and `CELL_DEAD` otherwise.  The libc
generator is modelled by two parameters: `seedInit` (the state `srand`
installs for a given seed) and `randStep` (one `rand()` call: value drawn and
next state); any conforming libc is some such pair of pure functions. -/
def rng_fill (randStep : Nat → Nat × Nat) :
    List (Nat × Nat) → Nat → (Nat → Nat → cell_state_t) →
      Nat × (Nat → Nat → cell_state_t)
  | [], s, g => (s, g)
  | p :: rest, s, g =>
      let v := (randStep s).1
      let s2 := (randStep s).2
      rng_fill randStep rest s2
        (setCell g p.1 p.2 (if v % 2 ≠ 0 then CELL_ALIVE else CELL_DEAD))

def initialize_grid_random (seedInit : Nat → Nat) (randStep : Nat → Nat × Nat)
    (timeNow : Nat) (ctx : gol_context_t) : gol_context_t :=
  let seed := if ctx.config.seed = 0 then timeNow % 2 ^ 32 else ctx.config.seed
  { ctx with grid :=
      (rng_fill randStep (cellIndices ctx.rows ctx.cols) (seedInit seed) ctx.grid).2 }

/-- Characters that produce an `Alive` cell in a pattern row. -/
def is_alive_char (c : Char) : Bool :=
  decide (c = '1') || decide (c = '#') || decide (c = '*') || decide (c = 'X')

/-- Characters that produce a `Dead` cell in a pattern row. -/
def is_dead_char (c : Char) : Bool :=
  decide (c = '0') || decide (c = '.') || decide (c = ' ')

/-- Parser state of `parse_manual_config`: the grid-section flag, the next
grid row to fill, and the grid being written. -/
structure ParseState where
  in_grid : Bool
  current_row : Nat
  grid : Nat → Nat → cell_state_t

/-- The inner character loop of `parse_manual_config`: scan the buffer while
`col < cols`; a marker character writes a cell and advances `col`, any other
character is skipped. -/
def parse_row_chars (cols row : Nat) :
    List Char → Nat → (Nat → Nat → cell_state_t) → (Nat → Nat → cell_state_t)
  | [], _, g => g
  | c :: rest, col, g =>
      if col < cols then
        if is_alive_char c then
          parse_row_chars cols row rest (col + 1) (setCell g row col CELL_ALIVE)
        else if is_dead_char c then
          parse_row_chars cols row rest (col + 1) (setCell g row col CELL_DEAD)
        else
          parse_row_chars cols row rest col g
      else g

/-- One `fgets` iteration of `parse_manual_config`.  A line is modelled
without its trailing newline; the byte buffer `fgets` yields is the line plus
`'\n'`.  Empty and `#` lines are skipped; a buffer whose first five bytes are
`@grid` (re)enters the grid section and resets the row counter; inside the
section other `@` lines are skipped, and a pattern line is scanned into row
`current_row` when that row exists. -/
def process_line (rows cols : Nat) (st : ParseState) (line : List Char) : ParseState :=
  let buffer : List Char := line ++ ['\n']
  if buffer.head? = some '\n' ∨ buffer.head? = some '#' then st
  else if List.isPrefixOf (String.toList "@grid") buffer then
    { st with in_grid := true, current_row := 0 }
  else if st.in_grid then
    if buffer.head? = some '@' then st
    else if st.current_row < rows then
      { st with grid := parse_row_chars cols st.current_row buffer 0 st.grid,
                current_row := st.current_row + 1 }
    else st
  else st

/-- `parse_manual_config` over the file's lines. -/
def parse_manual_config (rows cols : Nat) (lines : List (List Char))
    (g : Nat → Nat → cell_state_t) : ParseState :=
  lines.foldl (process_line rows cols) ⟨false, 0, g⟩

/-- `parse_manual_config` reports a warning when the grid section supplied
fewer pattern rows than the context declares. -/
def parse_manual_warning (rows cols : Nat) (lines : List (List Char))
    (g : Nat → Nat → cell_state_t) : Bool :=
  let st := parse_manual_config rows cols lines g
  st.in_grid && decide (st.current_row < rows)

/-- `initialize_grid_manual`: set every in-bounds cell to `CELL_DEAD`, then
apply the parsed pattern. -/
def initialize_grid_manual (ctx : gol_context_t) (lines : List (List Char)) :
    gol_context_t :=
  let dead : Nat → Nat → cell_state_t := fun i j =>
    if i < ctx.rows ∧ j < ctx.cols then CELL_DEAD else ctx.grid i j
  { ctx with grid := (parse_manual_config ctx.rows ctx.cols lines dead).grid }

/-- SDL constant `SDL_BUTTON_LEFT`. -/
def SDL_BUTTON_LEFT : Nat := 1

/-- SDL constant `SDLK_SPACE`. -/
def SDLK_SPACE : Nat := 32

/-- SDL constant `SDLK_r`. -/
def SDLK_r : Nat := 114

/-- External input events surfaced to `run_simulation` by the event queue. -/
inductive Event where
  | quit
  | mouseButtonDown (button : Nat) (x y : Int)
  | keyDown (key : Nat)
  | other
deriving DecidableEq

/-- The loop-local state of `run_simulation`: the `running` flag, the 32-bit
`generation` counter and the game context. -/
structure LoopState where
  running : Bool
  generation : Nat
  ctx : gol_context_t

/-- One `SDL_PollEvent` case of `run_simulation`: a quit event clears
`running`; a left mouse button toggles a cell; space only delays; `r`
re-randomizes (random mode only) and resets the generation counter; any other
event is ignored. -/
def process_event (seedInit : Nat → Nat) (randStep : Nat → Nat × Nat)
    (timeNow : Nat) (s : LoopState) (e : Event) : LoopState :=
  match e with
  | .quit => { s with running := false }
  | .mouseButtonDown b x y =>
      if b = SDL_BUTTON_LEFT then { s with ctx := handle_mouse_click s.ctx x y }
      else s
  | .keyDown k =>
      if k = SDLK_SPACE then s
      else if k = SDLK_r then
        { s with
          ctx := if s.ctx.config.config_type = CONFIG_RANDOM then
              initialize_grid_random seedInit randStep timeNow s.ctx
            else s.ctx,
          generation := 0 }
      else s
  | .other => s

/-- One iteration of `run_simulation`'s `while (running)` body: drain the
pending events, render (no state change), run one `simulate_step`, increment
the 32-bit generation counter, and clear `running` when the configured step
bound is reached.  The `running` flag is only consulted again at the top of
the NEXT iteration. -/
def run_tick (seedInit : Nat → Nat) (randStep : Nat → Nat × Nat) (timeNow : Nat)
    (s : LoopState) (events : List Event) : LoopState :=
  let s1 := events.foldl (process_event seedInit randStep timeNow) s
  let s2 := { s1 with ctx := simulate_step s1.ctx,
                      generation := (s1.generation + 1) % 2 ^ 32 }
  if s2.ctx.config.steps > 0 ∧ s2.generation ≥ s2.ctx.config.steps then
    { s2 with running := false }
  else s2

/-- The row-allocation loop of `allocate_grid`, with an explicit heap ledger.
`rowOk i` tells whether the `calloc` for row `i` succeeds; `live` counts heap
blocks currently allocated (the row-pointer array plus the rows so far).  On
the first failing row the loop frees the `i` earlier rows and the row-pointer
array — `i + 1` frees, leaving `live - i - 1` blocks — nulls the grid and
reports `GOL_ERROR_MEMORY`; otherwise every row is allocated zero-filled. -/
def alloc_rows_loop (rowOk : Nat → Bool) (rows : Nat) (i : Nat) (live : Nat) :
    gol_result_t × Nat :=
  if i < rows then
    if rowOk i then alloc_rows_loop rowOk rows (i + 1) (live + 1)
    else (GOL_ERROR_MEMORY, live - i - 1)
  else (GOL_SUCCESS, live)
termination_by rows - i

/-- `allocate_grid`: `calloc` the row-pointer array (`ptrOk`), then each row.
Returns the result code, the grid (`none` models a null `ctx->grid`; `calloc`
zero-fills so every cell starts `CELL_DEAD` = 0), and the number of heap
blocks still allocated on return. -/
def allocate_grid (ptrOk : Bool) (rowOk : Nat → Bool) (rows cols : Nat) :
    gol_result_t × Option (Nat → Nat → cell_state_t) × Nat :=
  if ptrOk then
    match alloc_rows_loop rowOk rows 0 1 with
    | (GOL_SUCCESS, live) => (GOL_SUCCESS, some (fun _ _ => CELL_DEAD), live)
    | (r, live) => (r, none, live)
  else (GOL_ERROR_MEMORY, none, 0)

/-- A 3×3 blinker grid at rest: the middle row alive. -/
def ctxBlinker : gol_context_t :=
  ⟨3, 3, fun i j => if i = 1 ∧ j < 3 then CELL_ALIVE else CELL_DEAD,
    ⟨3, 3, 0, 1, CONFIG_MANUAL⟩⟩

/-- A 1×1 grid holding a transient `CELL_DYING` cell. -/
def ctxDying : gol_context_t :=
  ⟨1, 1, fun _ _ => CELL_DYING, ⟨1, 1, 0, 1, CONFIG_MANUAL⟩⟩

/-- Two contexts are equal when all fields agree. -/
theorem gol_context_t.ext_grid {a b : gol_context_t}
    (hr : a.rows = b.rows) (hc : a.cols = b.cols)
    (hg : ∀ i j, a.grid i j = b.grid i j) (hcfg : a.config = b.config) : a = b := by
  cases a; cases b
  simp only [gol_context_t.mk.injEq]
  refine ⟨hr, hc, ?_, hcfg⟩
  funext i j; exact hg i j

theorem size_to_int_eq {n : Nat} (h : n ≤ INT_MAX) : size_to_int n = (n : Int) := by
  have h1 : n < 2 ^ 32 := by
    have : INT_MAX < 2 ^ 32 := by decide
    omega
  have h3 : n < 2 ^ 31 := by
    have : INT_MAX < 2 ^ 31 := by decide
    omega
  simp only [size_to_int, Nat.mod_eq_of_lt h1]
  rw [if_pos h3]

theorem mem_cellIndices {rows cols : Nat} {p : Nat × Nat} :
    p ∈ cellIndices rows cols ↔ p.1 < rows ∧ p.2 < cols := by
  cases p with
  | mk a b =>
    simp only [cellIndices, List.mem_flatMap, List.mem_map, List.mem_range, Prod.mk.injEq]
    constructor
    · rintro ⟨i, hi, j, hj, rfl, rfl⟩; exact ⟨hi, hj⟩
    · rintro ⟨ha, hb⟩; exact ⟨a, ha, b, hb, rfl, rfl⟩

theorem nodup_cellIndices (rows cols : Nat) : (cellIndices rows cols).Nodup := by
  unfold cellIndices
  rw [List.nodup_flatMap]
  constructor
  · intro i _
    exact (List.nodup_range cols).map (fun a b h => by simpa using congrArg Prod.snd h)
  · refine (List.nodup_range rows).pairwise_of_forall_ne ?_
    intro i j _ _ hij
    simp only [Function.onFun, List.Disjoint]
    intro p hp hq
    simp only [List.mem_map, List.mem_range] at hp hq
    obtain ⟨a, _, rfl⟩ := hp
    obtain ⟨b, _, hb⟩ := hq
    exact hij (by simpa using (congrArg Prod.fst hb).symm)

theorem counts_as_mark_value (ctx : gol_context_t) (i j : Nat) :
    counts_as_neighbor (mark_value ctx i j) = counts_as_neighbor (ctx.grid i j) := by
  unfold mark_value
  cases h : ctx.grid i j
  · dsimp only
    split <;> rfl
  · dsimp only
    split <;> rfl
  · rfl
  · rfl

theorem is_valid_position_congr {ctx₀ ctx : gol_context_t}
    (hr : ctx.rows = ctx₀.rows) (hc : ctx.cols = ctx₀.cols) (row col : Int) :
    is_valid_position ctx row col = is_valid_position ctx₀ row col := by
  simp [is_valid_position, hr, hc]

theorem count_neighbors_congr {ctx₀ ctx : gol_context_t}
    (hr : ctx.rows = ctx₀.rows) (hc : ctx.cols = ctx₀.cols)
    (hg : ∀ i j, counts_as_neighbor (ctx.grid i j) = counts_as_neighbor (ctx₀.grid i j))
    (row col : Nat) :
    count_neighbors ctx row col = count_neighbors ctx₀ row col := by
  simp only [count_neighbors, neighbor_deltas, List.foldl_cons, List.foldl_nil]
  simp only [is_valid_position_congr hr hc, hg]

theorem mark_cell_rows (ctx : gol_context_t) (i j : Nat) :
    (mark_cell ctx i j).rows = ctx.rows ∧ (mark_cell ctx i j).cols = ctx.cols ∧
    (mark_cell ctx i j).config = ctx.config := by
  unfold mark_cell
  cases ctx.grid i j <;> dsimp only <;> try exact ⟨rfl, rfl, rfl⟩
  all_goals split <;> exact ⟨rfl, rfl, rfl⟩

theorem mark_cell_grid {ctx₀ ctx : gol_context_t} {i j : Nat}
    (hcnt : count_neighbors ctx i j = count_neighbors ctx₀ i j)
    (hg : ctx.grid i j = ctx₀.grid i j) :
    ∀ a b, (mark_cell ctx i j).grid a b =
      if a = i ∧ b = j then mark_value ctx₀ i j else ctx.grid a b := by
  intro a b
  unfold mark_cell mark_value
  rw [hcnt, hg]
  by_cases hab : a = i ∧ b = j
  · obtain ⟨rfl, rfl⟩ := hab
    cases h0 : ctx₀.grid a b <;> dsimp only
    · split <;> simp [setCell, hg, h0]
    · split <;> simp [setCell, hg, h0]
    · simp [hg, h0]
    · simp [hg, h0]
  · cases h0 : ctx₀.grid i j <;> dsimp only
    · split <;> simp [setCell, hab]
    · split <;> simp [setCell, hab]
    · simp [hab]
    · simp [hab]

theorem mark_fold_spec (l : List (Nat × Nat)) (ctx₀ : gol_context_t) :
    ∀ ctx : gol_context_t,
    ctx.rows = ctx₀.rows → ctx.cols = ctx₀.cols → ctx.config = ctx₀.config →
    (∀ i j, counts_as_neighbor (ctx.grid i j) = counts_as_neighbor (ctx₀.grid i j)) →
    (∀ p ∈ l, ctx.grid p.1 p.2 = ctx₀.grid p.1 p.2) →
    l.Nodup →
    (mark_phase_order l ctx).rows = ctx.rows ∧
    (mark_phase_order l ctx).cols = ctx.cols ∧
    (mark_phase_order l ctx).config = ctx.config ∧
    (∀ a b, (mark_phase_order l ctx).grid a b =
      if (a, b) ∈ l then mark_value ctx₀ a b else ctx.grid a b) := by
  induction l with
  | nil =>
    intro ctx _ _ _ _ _ _
    refine ⟨rfl, rfl, rfl, ?_⟩
    intro a b
    simp [mark_phase_order]
  | cons p rest ih =>
    intro ctx hr hc hcfg hcount hsame hnodup
    obtain ⟨hp_notin, hnodup_rest⟩ := List.nodup_cons.mp hnodup
    have hgp : ctx.grid p.1 p.2 = ctx₀.grid p.1 p.2 := hsame p (List.mem_cons_self p rest)
    have hcnt : count_neighbors ctx p.1 p.2 = count_neighbors ctx₀ p.1 p.2 :=
      count_neighbors_congr hr hc hcount p.1 p.2
    have hmark := mark_cell_grid hcnt hgp
    have hdims := mark_cell_rows ctx p.1 p.2
    have hfold : mark_phase_order (p :: rest) ctx =
        mark_phase_order rest (mark_cell ctx p.1 p.2) := by
      simp [mark_phase_order]
    have hcount1 : ∀ i j, counts_as_neighbor ((mark_cell ctx p.1 p.2).grid i j) =
        counts_as_neighbor (ctx₀.grid i j) := by
      intro i j
      rw [hmark i j]
      by_cases hij : i = p.1 ∧ j = p.2
      · obtain ⟨rfl, rfl⟩ := hij
        rw [if_pos (⟨rfl, rfl⟩ : p.1 = p.1 ∧ p.2 = p.2), counts_as_mark_value]
      · rw [if_neg hij]; exact hcount i j
    have hsame1 : ∀ q ∈ rest, (mark_cell ctx p.1 p.2).grid q.1 q.2 = ctx₀.grid q.1 q.2 := by
      intro q hq
      rw [hmark q.1 q.2]
      have hqp : ¬(q.1 = p.1 ∧ q.2 = p.2) := by
        intro hcontra
        apply hp_notin
        have : q = p := Prod.ext hcontra.1 hcontra.2
        rwa [← this]
      rw [if_neg hqp]
      exact hsame q (List.mem_cons_of_mem p hq)
    have ihres := ih (mark_cell ctx p.1 p.2)
      (hdims.1.trans hr) (hdims.2.1.trans hc) (hdims.2.2.trans hcfg)
      hcount1 hsame1 hnodup_rest
    rw [hfold]
    refine ⟨ihres.1.trans hdims.1, ihres.2.1.trans hdims.2.1, ihres.2.2.1.trans hdims.2.2, ?_⟩
    intro a b
    rw [ihres.2.2.2 a b]
    by_cases hin : (a, b) ∈ rest
    · rw [if_pos hin, if_pos (List.mem_cons_of_mem p hin)]
    · rw [if_neg hin, hmark a b]
      by_cases hab : a = p.1 ∧ b = p.2
      · obtain ⟨rfl, rfl⟩ := hab
        rw [if_pos (And.intro rfl rfl), if_pos (by simp)]
      · rw [if_neg hab, if_neg ?_]
        intro hmem
        rcases List.mem_cons.mp hmem with h | h
        · exact hab ⟨congrArg Prod.fst h, congrArg Prod.snd h⟩
        · exact hin h

theorem commit_cell_at_rows (ctx : gol_context_t) (i j : Nat) :
    (commit_cell_at ctx i j).rows = ctx.rows ∧ (commit_cell_at ctx i j).cols = ctx.cols ∧
    (commit_cell_at ctx i j).config = ctx.config := by
  unfold commit_cell_at
  split
  · exact ⟨rfl, rfl, rfl⟩
  · split <;> exact ⟨rfl, rfl, rfl⟩

theorem commit_cell_at_grid (ctx : gol_context_t) (i j : Nat) :
    ∀ a b, (commit_cell_at ctx i j).grid a b =
      if a = i ∧ b = j then commit_result (ctx.grid i j) else ctx.grid a b := by
  intro a b
  unfold commit_cell_at commit_result
  by_cases hab : a = i ∧ b = j
  · obtain ⟨rfl, rfl⟩ := hab
    cases h0 : ctx.grid a b <;> simp [setCell, h0]
  · cases h0 : ctx.grid i j <;> simp [setCell, hab, h0]

theorem commit_fold_spec (l : List (Nat × Nat)) :
    ∀ ctx : gol_context_t,
    l.Nodup →
    (commit_phase_order l ctx).rows = ctx.rows ∧
    (commit_phase_order l ctx).cols = ctx.cols ∧
    (commit_phase_order l ctx).config = ctx.config ∧
    (∀ a b, (commit_phase_order l ctx).grid a b =
      if (a, b) ∈ l then commit_result (ctx.grid a b) else ctx.grid a b) := by
  induction l with
  | nil =>
    intro ctx _
    refine ⟨rfl, rfl, rfl, ?_⟩
    intro a b
    simp [commit_phase_order]
  | cons p rest ih =>
    intro ctx hnodup
    obtain ⟨hp_notin, hnodup_rest⟩ := List.nodup_cons.mp hnodup
    have hcommit := commit_cell_at_grid ctx p.1 p.2
    have hdims := commit_cell_at_rows ctx p.1 p.2
    have hfold : commit_phase_order (p :: rest) ctx =
        commit_phase_order rest (commit_cell_at ctx p.1 p.2) := by
      simp [commit_phase_order]
    have ihres := ih (commit_cell_at ctx p.1 p.2) hnodup_rest
    rw [hfold]
    refine ⟨ihres.1.trans hdims.1, ihres.2.1.trans hdims.2.1, ihres.2.2.1.trans hdims.2.2, ?_⟩
    intro a b
    rw [ihres.2.2.2 a b]
    by_cases hin : (a, b) ∈ rest
    · rw [if_pos hin, if_pos (List.mem_cons_of_mem p hin), hcommit a b]
      have hab : ¬(a = p.1 ∧ b = p.2) := by
        intro hcontra
        apply hp_notin
        have : (a, b) = p := Prod.ext hcontra.1 hcontra.2
        rwa [← this]
      rw [if_neg hab]
    · rw [if_neg hin, hcommit a b]
      by_cases hab : a = p.1 ∧ b = p.2
      · obtain ⟨rfl, rfl⟩ := hab
        rw [if_pos (And.intro rfl rfl), if_pos (by simp)]
      · rw [if_neg hab, if_neg ?_]
        intro hmem
        rcases List.mem_cons.mp hmem with h | h
        · exact hab ⟨congrArg Prod.fst h, congrArg Prod.snd h⟩
        · exact hin h

/-- Every cell of the post-step grid is the committed mark computed against the
pre-step snapshot; out-of-bounds locations and the other fields are untouched. -/
theorem simulate_step_spec (ctx : gol_context_t) :
    (simulate_step ctx).rows = ctx.rows ∧
    (simulate_step ctx).cols = ctx.cols ∧
    (simulate_step ctx).config = ctx.config ∧
    (∀ a b, (simulate_step ctx).grid a b =
      if a < ctx.rows ∧ b < ctx.cols then commit_result (mark_value ctx a b)
      else ctx.grid a b) := by
  have hmark := mark_fold_spec (cellIndices ctx.rows ctx.cols) ctx ctx
    rfl rfl rfl (fun _ _ => rfl) (fun _ _ => rfl) (nodup_cellIndices _ _)
  have hcommit := commit_fold_spec (cellIndices ctx.rows ctx.cols)
    (mark_phase_order (cellIndices ctx.rows ctx.cols) ctx) (nodup_cellIndices _ _)
  unfold simulate_step
  refine ⟨hcommit.1.trans hmark.1, hcommit.2.1.trans hmark.2.1,
    hcommit.2.2.1.trans hmark.2.2.1, ?_⟩
  intro a b
  rw [hcommit.2.2.2 a b, hmark.2.2.2 a b]
  by_cases hin : (a, b) ∈ cellIndices ctx.rows ctx.cols
  · have hb : a < ctx.rows ∧ b < ctx.cols := mem_cellIndices.mp hin
    rw [if_pos hin, if_pos hin, if_pos hb]
  · have hb : ¬(a < ctx.rows ∧ b < ctx.cols) := fun h => hin (mem_cellIndices.mpr h)
    rw [if_neg hin, if_neg hin, if_neg hb]

theorem commit_mark_eq_reference (ctx : gol_context_t) (i j : Nat)
    (h : ctx.grid i j = CELL_DEAD ∨ ctx.grid i j = CELL_ALIVE) :
    commit_result (mark_value ctx i j) = reference_next ctx i j := by
  unfold mark_value reference_next
  simp only [NEIGHBORS_TO_BIRTH, MIN_NEIGHBORS_TO_SURVIVE, MAX_NEIGHBORS_TO_SURVIVE]
  rcases h with h | h <;> rw [h] <;> dsimp only
  · by_cases hn : count_neighbors ctx i j = 3
    · rw [if_pos hn, if_pos hn]; rfl
    · rw [if_neg hn, if_neg hn]; rfl
  · by_cases hn : count_neighbors ctx i j < 2 ∨ count_neighbors ctx i j > 3
    · rw [if_pos hn, if_neg (by omega)]
      rfl
    · rw [if_neg hn, if_pos (by omega)]
      rfl

theorem step_with_order_spec (ctx : gol_context_t) (l : List (Nat × Nat))
    (hnd : l.Nodup)
    (hmem : ∀ p : Nat × Nat, p ∈ l ↔ p.1 < ctx.rows ∧ p.2 < ctx.cols) :
    (step_with_order l ctx).rows = ctx.rows ∧
    (step_with_order l ctx).cols = ctx.cols ∧
    (step_with_order l ctx).config = ctx.config ∧
    (∀ a b, (step_with_order l ctx).grid a b =
      if a < ctx.rows ∧ b < ctx.cols then commit_result (mark_value ctx a b)
      else ctx.grid a b) := by
  have hmark := mark_fold_spec l ctx ctx rfl rfl rfl (fun _ _ => rfl) (fun _ _ => rfl) hnd
  have hcommit := commit_fold_spec (cellIndices ctx.rows ctx.cols)
    (mark_phase_order l ctx) (nodup_cellIndices _ _)
  unfold step_with_order
  refine ⟨hcommit.1.trans hmark.1, hcommit.2.1.trans hmark.2.1,
    hcommit.2.2.1.trans hmark.2.2.1, ?_⟩
  intro a b
  rw [hcommit.2.2.2 a b, hmark.2.2.2 a b]
  by_cases hb : a < ctx.rows ∧ b < ctx.cols
  · have hin_l : (a, b) ∈ l := (hmem (a, b)).mpr hb
    have hin_c : (a, b) ∈ cellIndices ctx.rows ctx.cols := mem_cellIndices.mpr hb
    rw [if_pos hin_c, if_pos hin_l, if_pos hb]
  · have hout_l : (a, b) ∉ l := fun h => hb ((hmem (a, b)).mp h)
    have hout_c : (a, b) ∉ cellIndices ctx.rows ctx.cols := fun h => hb (mem_cellIndices.mp h)
    rw [if_neg hout_c, if_neg hout_l, if_neg hb]

/-- Claim C1: after one `simulate_step` on a grid at rest, a `Dead` cell with
exactly 3 live neighbors (counted on the pre-step grid) is `Alive`; an `Alive`
cell with fewer than 2 or more than 3 neighbors is `Dead`; an `Alive` cell with
2 or 3 neighbors remains `Alive`; a `Dead` cell with any other count remains
`Dead`. -/
theorem claim_C1_step_rules (ctx : gol_context_t) (i j : Nat)
    (hi : i < ctx.rows) (hj : j < ctx.cols) (hrest : atRest ctx) :
    (ctx.grid i j = CELL_DEAD ∧ count_neighbors ctx i j = 3 →
      (simulate_step ctx).grid i j = CELL_ALIVE) ∧
    (ctx.grid i j = CELL_ALIVE ∧
        (count_neighbors ctx i j < 2 ∨ count_neighbors ctx i j > 3) →
      (simulate_step ctx).grid i j = CELL_DEAD) ∧
    (ctx.grid i j = CELL_ALIVE ∧
        (count_neighbors ctx i j = 2 ∨ count_neighbors ctx i j = 3) →
      (simulate_step ctx).grid i j = CELL_ALIVE) ∧
    (ctx.grid i j = CELL_DEAD ∧ count_neighbors ctx i j ≠ 3 →
      (simulate_step ctx).grid i j = CELL_DEAD) := by
  have hs := (simulate_step_spec ctx).2.2.2 i j
  rw [if_pos ⟨hi, hj⟩] at hs
  have href := commit_mark_eq_reference ctx i j (hrest i hi j hj)
  rw [hs, href]
  unfold reference_next
  refine ⟨?_, ?_, ?_, ?_⟩ <;> rintro ⟨hcell, hn⟩ <;> rw [hcell] <;> dsimp only
  · rw [if_pos hn]
  · rw [if_neg (by omega)]
  · rw [if_pos hn]
  · rw [if_neg hn]

/-- Claim C3: the in-place mark-then-commit step equals the reference step that
computes every cell's next state from an immutable pre-step snapshot, and every
visitation order of the mark phase (any permutation of the row-major order)
yields the identical post-commit grid. -/
theorem claim_C3_order_independent (ctx : gol_context_t) (hrest : atRest ctx) :
    simulate_step ctx = reference_step ctx ∧
    ∀ l : List (Nat × Nat), l.Perm (cellIndices ctx.rows ctx.cols) →
      step_with_order l ctx = reference_step ctx := by
  have main : ∀ l : List (Nat × Nat), l.Perm (cellIndices ctx.rows ctx.cols) →
      step_with_order l ctx = reference_step ctx := by
    intro l hperm
    have hnd : l.Nodup := hperm.nodup_iff.mpr (nodup_cellIndices _ _)
    have hmem : ∀ p : Nat × Nat, p ∈ l ↔ p.1 < ctx.rows ∧ p.2 < ctx.cols := by
      intro p
      rw [hperm.mem_iff]
      exact mem_cellIndices
    have hspec := step_with_order_spec ctx l hnd hmem
    apply gol_context_t.ext_grid
    · rw [hspec.1]; rfl
    · rw [hspec.2.1]; rfl
    · intro a b
      rw [hspec.2.2.2 a b]
      show _ = (reference_step ctx).grid a b
      unfold reference_step
      dsimp only
      by_cases hb : a < ctx.rows ∧ b < ctx.cols
      · rw [if_pos hb, if_pos hb]
        exact commit_mark_eq_reference ctx a b (hrest a hb.1 b hb.2)
      · rw [if_neg hb, if_neg hb]
    · rw [hspec.2.2.1]; rfl
  refine ⟨?_, main⟩
  have : simulate_step ctx = step_with_order (cellIndices ctx.rows ctx.cols) ctx := rfl
  rw [this]
  exact main _ (List.Perm.refl _)

theorem foldl_congr_mem {α β : Type} (l : List α) (f g : β → α → β)
    (h : ∀ b : β, ∀ a ∈ l, f b a = g b a) : ∀ b, l.foldl f b = l.foldl g b := by
  induction l with
  | nil => intro b; rfl
  | cons hd tl ih =>
    intro b
    simp only [List.foldl_cons]
    rw [h b hd (List.mem_cons_self hd tl)]
    exact ih (fun b a ha => h b a (List.mem_cons_of_mem hd ha)) _

theorem ite_ite_and {c d : Prop} [Decidable c] [Decidable d] (n : Nat) :
    (if c then (if d then n + 1 else n) else n) = if c ∧ d then n + 1 else n := by
  by_cases hc : c <;> by_cases hd : d <;> simp [hc, hd]

theorem foldl_add_eq_sum {α : Type} (f : α → Nat) (l : List α) :
    ∀ a : Nat, l.foldl (fun n d => n + f d) a = a + (l.map f).sum := by
  induction l with
  | nil => intro a; simp
  | cons hd tl ih =>
    intro a
    simp only [List.foldl_cons, List.map_cons, List.sum_cons, ih]
    omega

theorem countP_eq_sum {α : Type} (p : α → Bool) (l : List α) :
    l.countP p = (l.map (fun d => if p d then 1 else 0)).sum := by
  induction l with
  | nil => rfl
  | cons hd tl ih =>
    simp only [List.countP_cons, List.map_cons, List.sum_cons, ih]
    omega

theorem count_neighbors_eq_sum (ctx : gol_context_t) (row col : Nat) :
    count_neighbors ctx row col = (neighbor_deltas.map (loop_flag ctx row col)).sum := by
  unfold count_neighbors
  rw [foldl_congr_mem _ _ (fun n d => n + loop_flag ctx row col d) ?_ 0, foldl_add_eq_sum]
  · omega
  · intro n d _
    dsimp only
    unfold loop_flag
    split_ifs <;> omega

theorem spec_count_eq_sum (ctx : gol_context_t) (row col : Nat) :
    spec_neighbor_count ctx row col = (moore_deltas.map (spec_flag ctx row col)).sum :=
  countP_eq_sum _ _

theorem flag_eq (ctx : gol_context_t) (row col : Nat)
    (hrow : row ≤ INT_MAX) (hcol : col ≤ INT_MAX)
    (hr : ctx.rows ≤ INT_MAX) (hc : ctx.cols ≤ INT_MAX)
    (d : Int × Int) (hd : ¬(d.1 = 0 ∧ d.2 = 0)) :
    loop_flag ctx row col d = spec_flag ctx row col d := by
  unfold loop_flag spec_flag
  rw [if_neg hd, size_to_int_eq hrow, size_to_int_eq hcol]
  unfold is_valid_position
  rw [size_to_int_eq hr, size_to_int_eq hc]
  by_cases hv : (0 ≤ (row : Int) + d.1 ∧ (row : Int) + d.1 < (ctx.rows : Int) ∧
      0 ≤ (col : Int) + d.2 ∧ (col : Int) + d.2 < (ctx.cols : Int))
  · simp [hv]
  · simp [hv]

theorem map_flag_chunk (ctx : gol_context_t) (row col : Nat)
    (hrow : row ≤ INT_MAX) (hcol : col ≤ INT_MAX)
    (hr : ctx.rows ≤ INT_MAX) (hc : ctx.cols ≤ INT_MAX)
    (l : List (Int × Int)) (hl : ∀ d ∈ l, ¬(d.1 = 0 ∧ d.2 = 0)) :
    List.map (loop_flag ctx row col) l = List.map (spec_flag ctx row col) l :=
  List.map_congr_left (fun d hd => flag_eq ctx row col hrow hcol hr hc d (hl d hd))

theorem count_neighbors_eq_spec (ctx : gol_context_t) (row col : Nat)
    (hrow : row ≤ INT_MAX) (hcol : col ≤ INT_MAX)
    (hr : ctx.rows ≤ INT_MAX) (hc : ctx.cols ≤ INT_MAX) :
    count_neighbors ctx row col = spec_neighbor_count ctx row col := by
  rw [count_neighbors_eq_sum, spec_count_eq_sum]
  have h1 : neighbor_deltas =
      ([((-1 : Int), (-1 : Int)), (-1, 0), (-1, 1), (0, -1)] ++ [(0, 0)]) ++
      [((0 : Int), (1 : Int)), (1, -1), (1, 0), (1, 1)] := rfl
  have h2 : moore_deltas =
      [((-1 : Int), (-1 : Int)), (-1, 0), (-1, 1), (0, -1)] ++
      [((0 : Int), (1 : Int)), (1, -1), (1, 0), (1, 1)] := rfl
  rw [h1, h2]
  rw [List.map_append, List.map_append, List.map_append, List.sum_append,
    List.sum_append, List.sum_append]
  rw [map_flag_chunk ctx row col hrow hcol hr hc
      [((-1 : Int), (-1 : Int)), (-1, 0), (-1, 1), (0, -1)] (by decide),
    map_flag_chunk ctx row col hrow hcol hr hc
      [((0 : Int), (1 : Int)), (1, -1), (1, 0), (1, 1)] (by decide)]
  have h0 : (List.map (loop_flag ctx row col) [((0 : Int), (0 : Int))]).sum = 0 := rfl
  rw [h0]
  omega

theorem count_neighbors_frame (ctx ctx' : gol_context_t) (row col : Nat)
    (hrow : row ≤ INT_MAX) (hcol : col ≤ INT_MAX)
    (hr : ctx.rows ≤ INT_MAX) (hc : ctx.cols ≤ INT_MAX)
    (hrows : ctx'.rows = ctx.rows) (hcols : ctx'.cols = ctx.cols)
    (hagree : ∀ d ∈ moore_deltas,
      0 ≤ (row : Int) + d.1 → (row : Int) + d.1 < (ctx.rows : Int) →
      0 ≤ (col : Int) + d.2 → (col : Int) + d.2 < (ctx.cols : Int) →
      ctx'.grid ((row : Int) + d.1).toNat ((col : Int) + d.2).toNat =
        ctx.grid ((row : Int) + d.1).toNat ((col : Int) + d.2).toNat) :
    count_neighbors ctx' row col = count_neighbors ctx row col := by
  rw [count_neighbors_eq_sum, count_neighbors_eq_sum]
  congr 1
  apply List.map_congr_left
  intro d hd
  unfold loop_flag
  by_cases h00 : d.1 = 0 ∧ d.2 = 0
  · rw [if_pos h00, if_pos h00]
  · have hdm : d ∈ moore_deltas := by
      fin_cases hd <;> first | decide | exact absurd ⟨rfl, rfl⟩ h00
    rw [if_neg h00, if_neg h00, size_to_int_eq hrow, size_to_int_eq hcol,
      is_valid_position_congr hrows hcols]
    by_cases hv : is_valid_position ctx ((row : Int) + d.1) ((col : Int) + d.2) = true
    · rw [if_pos hv, if_pos hv]
      unfold is_valid_position at hv
      rw [size_to_int_eq hr, size_to_int_eq hc] at hv
      have hb := of_decide_eq_true hv
      rw [hagree d hdm hb.1 hb.2.1 hb.2.2.1 hb.2.2.2]
    · rw [if_neg hv, if_neg hv]

/-- Claim C2: for every grid and in-bounds position, `count_neighbors` equals
the number of Moore-neighborhood offsets whose position lies within
`[0,rows) × [0,cols)` and whose cell is `Alive` or `Dying`; moreover the count
depends only on the grid values at those valid strict-neighbor positions — it
never reads a position outside the bounds and never counts the cell itself. -/
theorem claim_C2_count_neighbors (ctx : gol_context_t) (row col : Nat)
    (hrow : row < ctx.rows) (hcol : col < ctx.cols)
    (hr : ctx.rows ≤ INT_MAX) (hc : ctx.cols ≤ INT_MAX) :
    count_neighbors ctx row col = spec_neighbor_count ctx row col ∧
    (∀ ctx' : gol_context_t, ctx'.rows = ctx.rows → ctx'.cols = ctx.cols →
      (∀ d ∈ moore_deltas,
        0 ≤ (row : Int) + d.1 → (row : Int) + d.1 < (ctx.rows : Int) →
        0 ≤ (col : Int) + d.2 → (col : Int) + d.2 < (ctx.cols : Int) →
        ctx'.grid ((row : Int) + d.1).toNat ((col : Int) + d.2).toNat =
          ctx.grid ((row : Int) + d.1).toNat ((col : Int) + d.2).toNat) →
      count_neighbors ctx' row col = count_neighbors ctx row col) := by
  have hrow' : row ≤ INT_MAX := le_trans (Nat.le_of_lt hrow) hr
  have hcol' : col ≤ INT_MAX := le_trans (Nat.le_of_lt hcol) hc
  exact ⟨count_neighbors_eq_spec ctx row col hrow' hcol' hr hc,
    fun ctx' h1 h2 h3 =>
      count_neighbors_frame ctx ctx' row col hrow' hcol' hr hc h1 h2 h3⟩

theorem natAbs_tdiv_eight (v : Int) : (Int.tdiv v 8).natAbs = v.natAbs / 8 := by
  cases v with
  | ofNat m =>
    simp [Int.tdiv, Int.natAbs_ofNat]
    omega
  | negSucc m =>
    simp [Int.tdiv, Int.natAbs_neg, Int.natAbs_ofNat, Int.natAbs_negSucc]
    omega

theorem tdiv_cast_lt {v : Int} {n : Nat} (hv : v.natAbs ≤ 2 ^ 31) (hn : n ≤ INT_MAX) :
    (((Int.tdiv v (CELL_SIZE : Int)) % (2 ^ 64 : Int)).toNat < n ↔
      0 ≤ Int.tdiv v (CELL_SIZE : Int) ∧ Int.tdiv v (CELL_SIZE : Int) < (n : Int)) := by
  have h8 : (CELL_SIZE : Int) = 8 := rfl
  rw [h8]
  have hq : (Int.tdiv v 8).natAbs = v.natAbs / 8 := natAbs_tdiv_eight v
  unfold INT_MAX at hn
  omega

theorem tdiv_cast_val {v : Int} (hv : v.natAbs ≤ 2 ^ 31)
    (hge : 0 ≤ Int.tdiv v (CELL_SIZE : Int)) :
    (((Int.tdiv v (CELL_SIZE : Int)) % (2 ^ 64 : Int)).toNat : Int) =
      Int.tdiv v (CELL_SIZE : Int) := by
  have h8 : (CELL_SIZE : Int) = 8 := rfl
  rw [h8] at hge ⊢
  have hq : (Int.tdiv v 8).natAbs = v.natAbs / 8 := natAbs_tdiv_eight v
  omega

/-- Claim C6: `handle_mouse_click` maps a click at pixel `(x, y)` to the cell
`(y / CELL_SIZE, x / CELL_SIZE)` (C `int` division); when that cell is in
bounds exactly it flips between `Alive` and `Dead` and every other cell and
field is unchanged; when it is out of bounds the whole context is unchanged
(and the function has no error channel at all). -/
theorem claim_C6_mouse_toggle (ctx : gol_context_t) (x y : Int)
    (hx : x.natAbs ≤ 2 ^ 31) (hy : y.natAbs ≤ 2 ^ 31)
    (hr : ctx.rows ≤ INT_MAX) (hc : ctx.cols ≤ INT_MAX)
    (hrest : atRest ctx) :
    (∀ row col : Nat,
      (row : Int) = Int.tdiv y (CELL_SIZE : Int) →
      (col : Int) = Int.tdiv x (CELL_SIZE : Int) →
      row < ctx.rows → col < ctx.cols →
      ((ctx.grid row col = CELL_ALIVE →
          (handle_mouse_click ctx x y).grid row col = CELL_DEAD) ∧
       (ctx.grid row col = CELL_DEAD →
          (handle_mouse_click ctx x y).grid row col = CELL_ALIVE) ∧
       (∀ a b : Nat, ¬(a = row ∧ b = col) →
          (handle_mouse_click ctx x y).grid a b = ctx.grid a b) ∧
       (handle_mouse_click ctx x y).rows = ctx.rows ∧
       (handle_mouse_click ctx x y).cols = ctx.cols ∧
       (handle_mouse_click ctx x y).config = ctx.config)) ∧
    (¬(0 ≤ Int.tdiv y (CELL_SIZE : Int) ∧
        Int.tdiv y (CELL_SIZE : Int) < (ctx.rows : Int) ∧
        0 ≤ Int.tdiv x (CELL_SIZE : Int) ∧
        Int.tdiv x (CELL_SIZE : Int) < (ctx.cols : Int)) →
      handle_mouse_click ctx x y = ctx) := by
  constructor
  · intro row col h1 h2 h3 h4
    have hcrow : ((Int.tdiv y (CELL_SIZE : Int)) % (2 ^ 64 : Int)).toNat = row := by
      have := tdiv_cast_val hy (h1 ▸ Int.natCast_nonneg row)
      omega
    have hccol : ((Int.tdiv x (CELL_SIZE : Int)) % (2 ^ 64 : Int)).toNat = col := by
      have := tdiv_cast_val hx (h2 ▸ Int.natCast_nonneg col)
      omega
    unfold handle_mouse_click
    simp only [hcrow, hccol]
    rw [if_pos ⟨h3, h4⟩]
    refine ⟨?_, ?_, ?_, rfl, rfl, rfl⟩
    · intro halive
      simp [setCell, halive]
    · intro hdead
      simp [setCell, hdead]
    · intro a b hab
      simp only [setCell]
      rw [if_neg ?_]
      intro hcontra
      exact hab ⟨hcontra.1, hcontra.2⟩
  · intro hout
    unfold handle_mouse_click
    rw [if_neg ?_]
    intro hcontra
    rw [tdiv_cast_lt hy hr, tdiv_cast_lt hx hc] at hcontra
    exact hout ⟨hcontra.1.1, hcontra.1.2, hcontra.2.1, hcontra.2.2⟩

/-- Claim C10: when `handle_mouse_click` hits an in-bounds cell, any state
other than exactly `CELL_ALIVE` — including the transient `CELL_DYING` and
`CELL_BIRTH` — is replaced by `CELL_ALIVE`; only a cell that is exactly
`CELL_ALIVE` is set to `CELL_DEAD`. -/
theorem claim_C10_toggle_nonalive (ctx : gol_context_t) (x y : Int) :
    ∀ row col : Nat,
      row = ((Int.tdiv y (CELL_SIZE : Int)) % (2 ^ 64 : Int)).toNat →
      col = ((Int.tdiv x (CELL_SIZE : Int)) % (2 ^ 64 : Int)).toNat →
      row < ctx.rows → col < ctx.cols →
      ((ctx.grid row col ≠ CELL_ALIVE →
          (handle_mouse_click ctx x y).grid row col = CELL_ALIVE) ∧
       (ctx.grid row col = CELL_ALIVE →
          (handle_mouse_click ctx x y).grid row col = CELL_DEAD)) := by
  intro row col h1 h2 h3 h4
  unfold handle_mouse_click
  rw [← h1, ← h2, if_pos ⟨h3, h4⟩]
  constructor
  · intro hne
    simp [setCell, hne]
  · intro halive
    simp [setCell, halive]

theorem rng_fill_pointwise (randStep : Nat → Nat × Nat) :
    ∀ (l : List (Nat × Nat)) (s : Nat) (g1 g2 : Nat → Nat → cell_state_t),
    ((rng_fill randStep l s g1).1 = (rng_fill randStep l s g2).1) ∧
    (∀ p : Nat × Nat, p ∈ l →
      (rng_fill randStep l s g1).2 p.1 p.2 = (rng_fill randStep l s g2).2 p.1 p.2) ∧
    (∀ a b : Nat, (a, b) ∉ l →
      ((rng_fill randStep l s g1).2 a b = g1 a b ∧
       (rng_fill randStep l s g2).2 a b = g2 a b)) := by
  intro l
  induction l with
  | nil =>
    intro s g1 g2
    exact ⟨rfl, fun p hp => absurd hp (List.not_mem_nil p), fun a b _ => ⟨rfl, rfl⟩⟩
  | cons q rest ih =>
    intro s g1 g2
    simp only [rng_fill]
    set s2 := (randStep s).2
    set v := (randStep s).1
    set c := if v % 2 ≠ 0 then CELL_ALIVE else CELL_DEAD
    have ihres := ih s2 (setCell g1 q.1 q.2 c) (setCell g2 q.1 q.2 c)
    refine ⟨ihres.1, ?_, ?_⟩
    · intro p hp
      by_cases hpr : p ∈ rest
      · exact ihres.2.1 p hpr
      · have hpq : p = q := by
          rcases List.mem_cons.mp hp with h | h
          · exact h
          · exact absurd h hpr
        subst hpq
        have h1 := (ihres.2.2 p.1 p.2 (by simpa using hpr)).1
        have h2 := (ihres.2.2 p.1 p.2 (by simpa using hpr)).2
        rw [h1, h2]
        simp [setCell]
    · intro a b hab
      have habr : (a, b) ∉ rest := fun h => hab (List.mem_cons_of_mem q h)
      have habq : ¬(a = q.1 ∧ b = q.2) := by
        intro hcontra
        apply hab
        have : (a, b) = q := Prod.ext hcontra.1 hcontra.2
        rw [this]
        exact List.mem_cons_self q rest
      have h1 := (ihres.2.2 a b habr).1
      have h2 := (ihres.2.2 a b habr).2
      rw [h1, h2]
      simp [setCell, habq]

/-- Claim C4: random initialization is deterministic for a fixed non-zero
seed — two runs with the same seed and the same dimensions assign the same
state to every cell, whatever the wall-clock time of each run; with seed 0 the
generator is seeded from the wall clock and two runs may produce different
grids. -/
theorem claim_C4_random_deterministic
    (seedInit : Nat → Nat) (randStep : Nat → Nat × Nat)
    (t1 t2 : Nat) (ctx1 ctx2 : gol_context_t)
    (hrows : ctx1.rows = ctx2.rows) (hcols : ctx1.cols = ctx2.cols)
    (hseed : ctx1.config.seed = ctx2.config.seed) (hnz : ctx1.config.seed ≠ 0) :
    (∀ i j : Nat, i < ctx1.rows → j < ctx1.cols →
      (initialize_grid_random seedInit randStep t1 ctx1).grid i j =
      (initialize_grid_random seedInit randStep t2 ctx2).grid i j) ∧
    (∃ (si : Nat → Nat) (rs : Nat → Nat × Nat) (u1 u2 : Nat) (ctx : gol_context_t),
      ctx.config.seed = 0 ∧
      (initialize_grid_random si rs u1 ctx).grid 0 0 ≠
      (initialize_grid_random si rs u2 ctx).grid 0 0) := by
  constructor
  · intro i j hi hj
    unfold initialize_grid_random
    rw [if_neg hnz, if_neg (hseed ▸ hnz), ← hseed, ← hrows, ← hcols]
    have := (rng_fill_pointwise randStep (cellIndices ctx1.rows ctx1.cols)
      (seedInit ctx1.config.seed) ctx1.grid ctx2.grid).2.1 (i, j)
      (mem_cellIndices.mpr ⟨hi, hj⟩)
    exact this
  · refine ⟨id, fun s => (s, s), 0, 1,
      ⟨1, 1, fun _ _ => CELL_DEAD, ⟨1, 1, 0, 0, CONFIG_RANDOM⟩⟩, rfl, ?_⟩
    decide

theorem parse_row_chars_pointwise (cols row : Nat) (i j : Nat) :
    ∀ (chars : List Char) (col : Nat) (g g' : Nat → Nat → cell_state_t),
    g i j = g' i j →
    parse_row_chars cols row chars col g i j = parse_row_chars cols row chars col g' i j := by
  intro chars
  induction chars with
  | nil =>
    intro col g g' h
    simp only [parse_row_chars]
    exact h
  | cons c rest ih =>
    intro col g g' h
    simp only [parse_row_chars]
    split_ifs
    · exact ih (col + 1) _ _ (by simp [setCell, h])
    · exact ih (col + 1) _ _ (by simp [setCell, h])
    · exact ih col _ _ h
    · exact h

theorem process_line_pointwise (rows cols : Nat) (i j : Nat)
    (st st' : ParseState) (line : List Char)
    (hin : st.in_grid = st'.in_grid) (hrow : st.current_row = st'.current_row)
    (hg : st.grid i j = st'.grid i j) :
    (process_line rows cols st line).in_grid = (process_line rows cols st' line).in_grid ∧
    (process_line rows cols st line).current_row = (process_line rows cols st' line).current_row ∧
    (process_line rows cols st line).grid i j = (process_line rows cols st' line).grid i j := by
  unfold process_line
  dsimp only
  by_cases h1 : (line ++ ['\n']).head? = some '\n' ∨ (line ++ ['\n']).head? = some '#'
  · rw [if_pos h1, if_pos h1]
    exact ⟨hin, hrow, hg⟩
  · rw [if_neg h1, if_neg h1]
    by_cases h2 : List.isPrefixOf (String.toList "@grid") (line ++ ['\n']) = true
    · rw [if_pos h2, if_pos h2]
      exact ⟨rfl, rfl, hg⟩
    · rw [if_neg h2, if_neg h2, hin]
      by_cases h3 : st'.in_grid = true
      · rw [if_pos h3, if_pos h3]
        by_cases h4 : (line ++ ['\n']).head? = some '@'
        · rw [if_pos h4, if_pos h4]
          exact ⟨hin, hrow, hg⟩
        · rw [if_neg h4, if_neg h4, hrow]
          by_cases h5 : st'.current_row < rows
          · rw [if_pos h5, if_pos h5]
            exact ⟨rfl, rfl, parse_row_chars_pointwise cols st'.current_row i j _ 0 _ _ hg⟩
          · rw [if_neg h5, if_neg h5]
            exact ⟨hin, hrow, hg⟩
      · rw [if_neg h3, if_neg h3]
        exact ⟨hin, hrow, hg⟩

theorem parse_manual_pointwise (rows cols : Nat) (i j : Nat) :
    ∀ (lines : List (List Char)) (st st' : ParseState),
    st.in_grid = st'.in_grid → st.current_row = st'.current_row →
    st.grid i j = st'.grid i j →
    (lines.foldl (process_line rows cols) st).in_grid =
      (lines.foldl (process_line rows cols) st').in_grid ∧
    (lines.foldl (process_line rows cols) st).current_row =
      (lines.foldl (process_line rows cols) st').current_row ∧
    (lines.foldl (process_line rows cols) st).grid i j =
      (lines.foldl (process_line rows cols) st').grid i j := by
  intro lines
  induction lines with
  | nil => intro st st' h1 h2 h3; exact ⟨h1, h2, h3⟩
  | cons hd tl ih =>
    intro st st' h1 h2 h3
    simp only [List.foldl_cons]
    have hstep := process_line_pointwise rows cols i j st st' hd h1 h2 h3
    exact ih _ _ hstep.1 hstep.2.1 hstep.2.2

/-- Claim C5: manual initialization first sets every cell Dead and then
applies the pattern rows after the `@grid` marker: `1`, `#`, `*`, `X` write an
Alive cell, `0`, `.`, space write a Dead cell, any other character consumes no
cell; pattern rows beyond the declared row count and characters beyond `cols`
are ignored; in particular the 5×5 pattern of the claim yields live cells
exactly at (0,2), (1,2), (2,2). -/
theorem claim_C5_manual_init :
    (∀ ctx : gol_context_t, ctx.rows = 5 → ctx.cols = 5 →
      ∀ i : Nat, i < 5 → ∀ j : Nat, j < 5 →
        ((initialize_grid_manual ctx [String.toList "@grid", String.toList "00100",
            String.toList "00100", String.toList "00100", String.toList "00000",
            String.toList "00000"]).grid i j = CELL_ALIVE ↔
          ((i, j) = (0, 2) ∨ (i, j) = (1, 2) ∨ (i, j) = (2, 2)))) ∧
    (∀ c : Char,
      (is_alive_char c = true ↔ (c = '1' ∨ c = '#' ∨ c = '*' ∨ c = 'X')) ∧
      (is_dead_char c = true ↔ (c = '0' ∨ c = '.' ∨ c = ' '))) ∧
    (∀ cols row : Nat, ∀ c : Char, ∀ rest : List Char, ∀ col : Nat,
      ∀ g : Nat → Nat → cell_state_t, col < cols →
      (is_alive_char c = true →
        parse_row_chars cols row (c :: rest) col g =
          parse_row_chars cols row rest (col + 1) (setCell g row col CELL_ALIVE)) ∧
      (is_dead_char c = true →
        parse_row_chars cols row (c :: rest) col g =
          parse_row_chars cols row rest (col + 1) (setCell g row col CELL_DEAD)) ∧
      (is_alive_char c = false → is_dead_char c = false →
        parse_row_chars cols row (c :: rest) col g =
          parse_row_chars cols row rest col g)) ∧
    (∀ rows cols : Nat, ∀ st : ParseState, ∀ line : List Char,
      rows ≤ st.current_row →
      ¬ (List.isPrefixOf (String.toList "@grid") (line ++ ['\n']) = true) →
      process_line rows cols st line = st) ∧
    (∀ cols row : Nat, ∀ chars : List Char, ∀ col : Nat,
      ∀ g : Nat → Nat → cell_state_t, cols ≤ col →
      parse_row_chars cols row chars col g = g) := by
  refine ⟨?_, ?_, ?_, ?_, ?_⟩
  · intro ctx h5r h5c i hi j hj
    unfold initialize_grid_manual
    dsimp only
    rw [h5r, h5c]
    have hconc : ∀ i : Nat, i < 5 → ∀ j : Nat, j < 5 →
        ((parse_manual_config 5 5 [String.toList "@grid", String.toList "00100",
            String.toList "00100", String.toList "00100", String.toList "00000",
            String.toList "00000"] (fun _ _ => CELL_DEAD)).grid i j = CELL_ALIVE ↔
          ((i, j) = (0, 2) ∨ (i, j) = (1, 2) ∨ (i, j) = (2, 2))) := by decide
    have hpt := parse_manual_pointwise 5 5 i j [String.toList "@grid",
        String.toList "00100", String.toList "00100", String.toList "00100",
        String.toList "00000", String.toList "00000"]
      ⟨false, 0, fun a b => if a < 5 ∧ b < 5 then CELL_DEAD else ctx.grid a b⟩
      ⟨false, 0, fun _ _ => CELL_DEAD⟩ rfl rfl (by dsimp only; rw [if_pos ⟨hi, hj⟩])
    unfold parse_manual_config at hconc ⊢
    rw [hpt.2.2]
    exact hconc i hi j hj
  · intro c
    constructor
    · simp [is_alive_char]
      tauto
    · simp [is_dead_char]
      tauto
  · intro cols row c rest col g hcol
    refine ⟨?_, ?_, ?_⟩
    · intro ha
      simp only [parse_row_chars]
      rw [if_pos hcol, if_pos ha]
    · intro hd
      simp only [parse_row_chars]
      rw [if_pos hcol]
      by_cases ha : is_alive_char c = true
      · rcases (by simp [is_alive_char] at ha; tauto : c = '1' ∨ c = '#' ∨ c = '*' ∨ c = 'X')
          with h | h | h | h <;> (subst h; simp [is_dead_char] at hd)
      · rw [if_neg ha, if_pos hd]
    · intro ha hd
      simp only [parse_row_chars]
      rw [if_pos hcol, if_neg ?_, if_neg ?_]
      · rw [hd]
        exact Bool.false_ne_true
      · rw [ha]
        exact Bool.false_ne_true
  · intro rows cols st line hrow hng
    unfold process_line
    dsimp only
    by_cases h1 : (line ++ ['\n']).head? = some '\n' ∨ (line ++ ['\n']).head? = some '#'
    · rw [if_pos h1]
    · rw [if_neg h1, if_neg hng]
      by_cases h3 : st.in_grid = true
      · rw [if_pos h3]
        by_cases h4 : (line ++ ['\n']).head? = some '@'
        · rw [if_pos h4]
        · rw [if_neg h4, if_neg (by omega)]
      · rw [if_neg h3]
  · intro cols row chars col g hge
    cases chars with
    | nil => rfl
    | cons c rest =>
      simp only [parse_row_chars]
      rw [if_neg (by omega)]

/-- Claim C9 fails on the code: a second line whose first five characters are
`@grid` is not skipped — it re-enters the grid section and resets the row
counter, so on a 2×1 grid the file `@grid / 1 / @grid / 0` leaves cell (0,0)
Dead, while without the inner `@grid` line the same pattern rows leave it
Alive. -/
theorem claim_C9_counterexample :
    (initialize_grid_manual
        ⟨2, 1, fun _ _ => CELL_DEAD, ⟨2, 1, 0, 1, CONFIG_MANUAL⟩⟩
        [String.toList "@grid", String.toList "1", String.toList "@grid",
          String.toList "0"]).grid 0 0 = CELL_DEAD ∧
    (initialize_grid_manual
        ⟨2, 1, fun _ _ => CELL_DEAD, ⟨2, 1, 0, 1, CONFIG_MANUAL⟩⟩
        [String.toList "@grid", String.toList "1",
          String.toList "0"]).grid 0 0 = CELL_ALIVE := by
  constructor
  · decide
  · decide

/-- Claim C9 (amended): inside or after the grid section, a line beginning
with `@` whose first five characters are not `@grid` is skipped — it writes no
cells and leaves the whole parser state (including the target row of
subsequent pattern lines) unchanged; a line whose first five characters are
`@grid` instead re-enters the grid section and resets the row counter to 0. -/
theorem claim_C9_amended (rows cols : Nat) (st : ParseState) (line : List Char)
    (hhead : line.head? = some '@') :
    (¬ (List.isPrefixOf (String.toList "@grid") (line ++ ['\n']) = true) →
      process_line rows cols st line = st) ∧
    (List.isPrefixOf (String.toList "@grid") (line ++ ['\n']) = true →
      process_line rows cols st line =
        { st with in_grid := true, current_row := 0 }) := by
  rcases line with _ | ⟨c, rest⟩
  · exact absurd hhead (by simp)
  · have hc : c = '@' := by simpa using hhead
    subst hc
    unfold process_line
    dsimp only [List.cons_append, List.head?]
    constructor
    · intro hng
      rw [if_neg (by decide), if_neg hng]
      by_cases h3 : st.in_grid = true
      · rw [if_pos h3, if_pos rfl]
      · rw [if_neg h3]
    · intro hpre
      rw [if_neg (by decide), if_pos hpre]

theorem process_event_keeps_stopped (seedInit : Nat → Nat)
    (randStep : Nat → Nat × Nat) (timeNow : Nat) (s : LoopState) (e : Event)
    (h : s.running = false) :
    (process_event seedInit randStep timeNow s e).running = false := by
  cases e with
  | quit => rfl
  | mouseButtonDown b x y =>
    simp only [process_event]
    split_ifs <;> exact h
  | keyDown k =>
    simp only [process_event]
    split_ifs <;> exact h
  | other => exact h

theorem foldl_events_running_false (seedInit : Nat → Nat)
    (randStep : Nat → Nat × Nat) (timeNow : Nat) :
    ∀ (events : List Event) (s : LoopState), s.running = false →
    (events.foldl (process_event seedInit randStep timeNow) s).running = false := by
  intro events
  induction events with
  | nil => intro s h; exact h
  | cons e rest ih =>
    intro s h
    simp only [List.foldl_cons]
    exact ih _ (process_event_keeps_stopped seedInit randStep timeNow s e h)

theorem foldl_events_quit (seedInit : Nat → Nat)
    (randStep : Nat → Nat × Nat) (timeNow : Nat) :
    ∀ (events : List Event) (s : LoopState), Event.quit ∈ events →
    (events.foldl (process_event seedInit randStep timeNow) s).running = false := by
  intro events
  induction events with
  | nil => intro s h; exact absurd h (List.not_mem_nil _)
  | cons e rest ih =>
    intro s h
    simp only [List.foldl_cons]
    by_cases he : e = Event.quit
    · subst he
      apply foldl_events_running_false
      rfl
    · apply ih
      rcases List.mem_cons.mp h with h1 | h1
      · exact absurd h1.symm he
      · exact h1

/-- Claim C7 fails on the code: even when the quit event is the only event
drained at the top of the tick, the tick still runs one full generation and
increments the generation counter — the loop only exits before the NEXT
tick. -/
theorem claim_C7_counterexample :
    (run_tick id (fun s => (s, s)) 0
      ⟨true, 0, ⟨1, 1, fun _ _ => CELL_DEAD, ⟨1, 1, 0, 1, CONFIG_MANUAL⟩⟩⟩
      [Event.quit]).generation = 1 ∧
    (run_tick id (fun s => (s, s)) 0
      ⟨true, 0, ⟨1, 1, fun _ _ => CELL_DEAD, ⟨1, 1, 0, 1, CONFIG_MANUAL⟩⟩⟩
      [Event.quit]).running = false := by
  constructor
  · decide
  · decide

/-- Claim C7 (amended): a quit signal among the tick's drained events clears
`running`, so the loop exits before the next tick; the current tick still
performs its render, one full `simulate_step` generation, and the generation
counter increment. -/
theorem claim_C7_amended (seedInit : Nat → Nat) (randStep : Nat → Nat × Nat)
    (timeNow : Nat) (s : LoopState) (events : List Event)
    (hq : Event.quit ∈ events) :
    (run_tick seedInit randStep timeNow s events).running = false ∧
    (run_tick seedInit randStep timeNow s events).ctx =
      simulate_step ((events.foldl (process_event seedInit randStep timeNow) s).ctx) ∧
    (run_tick seedInit randStep timeNow s events).generation =
      ((events.foldl (process_event seedInit randStep timeNow) s).generation + 1) % 2 ^ 32 := by
  have hrun := foldl_events_quit seedInit randStep timeNow events s hq
  unfold run_tick
  dsimp only
  split_ifs with hstop
  · exact ⟨rfl, rfl, rfl⟩
  · exact ⟨hrun, rfl, rfl⟩

theorem alloc_rows_loop_fail (rowOk : Nat → Bool) (rows : Nat) (i : Nat)
    (hi : i < rows) (hfail : rowOk i = false) :
    ∀ k : Nat, k ≤ i → (∀ j : Nat, k ≤ j → j < i → rowOk j = true) →
    alloc_rows_loop rowOk rows k (1 + k) = (GOL_ERROR_MEMORY, 0) := by
  have hgen : ∀ n : Nat, ∀ k : Nat, i - k ≤ n → k ≤ i →
      (∀ j : Nat, k ≤ j → j < i → rowOk j = true) →
      alloc_rows_loop rowOk rows k (1 + k) = (GOL_ERROR_MEMORY, 0) := by
    intro n
    induction n with
    | zero =>
      intro k hn hk _
      have hki : k = i := by omega
      subst hki
      unfold alloc_rows_loop
      rw [if_pos hi, hfail]
      simp only [Bool.false_eq_true, if_false]
      congr 1
      omega
    | succ m ih =>
      intro k hn hk hok
      by_cases hki : k = i
      · subst hki
        unfold alloc_rows_loop
        rw [if_pos hi, hfail]
        simp only [Bool.false_eq_true, if_false]
        congr 1
        omega
      · have hklt : k < i := by omega
        unfold alloc_rows_loop
        rw [if_pos (by omega), hok k (le_refl k) hklt]
        simp only [if_true]
        exact ih (k + 1) (by omega) (by omega)
          (fun j h1 h2 => hok j (by omega) h2)
  intro k hk hok
  exact hgen (i - k) k (le_refl _) hk hok

theorem alloc_rows_loop_ok (rowOk : Nat → Bool) (rows : Nat)
    (hok : ∀ j : Nat, j < rows → rowOk j = true) :
    ∀ k : Nat, k ≤ rows →
    alloc_rows_loop rowOk rows k (1 + k) = (GOL_SUCCESS, 1 + rows) := by
  have hgen : ∀ n : Nat, ∀ k : Nat, rows - k ≤ n → k ≤ rows →
      alloc_rows_loop rowOk rows k (1 + k) = (GOL_SUCCESS, 1 + rows) := by
    intro n
    induction n with
    | zero =>
      intro k hn hk
      have hkr : k = rows := by omega
      subst hkr
      unfold alloc_rows_loop
      rw [if_neg (by omega)]
    | succ m ih =>
      intro k hn hk
      by_cases hkr : k = rows
      · subst hkr
        unfold alloc_rows_loop
        rw [if_neg (by omega)]
      · have hklt : k < rows := by omega
        unfold alloc_rows_loop
        rw [if_pos hklt, hok k hklt]
        simp only [if_true]
        exact ih (k + 1) (by omega) (by omega)
  intro k hk
  exact hgen (rows - k) k (le_refl _) hk

/-- Claim C8: when the `calloc` for row `i` fails (all earlier rows having
succeeded), `allocate_grid` frees every previously allocated row and the
row-pointer array (no block stays allocated), leaves the context's grid
pointer null, and returns `GOL_ERROR_MEMORY`, whose numeric value (the
process exit code) is 5; on success every cell of the `rows × cols` grid is
`CELL_DEAD` (and the rows plus the pointer array stay allocated, owned by the
context). -/
theorem claim_C8_alloc_no_leak (rowOk : Nat → Bool) (rows cols : Nat) (i : Nat)
    (hi : i < rows) (hfail : rowOk i = false)
    (hok : ∀ j : Nat, j < i → rowOk j = true) :
    (allocate_grid true rowOk rows cols = (GOL_ERROR_MEMORY, none, 0) ∧
     gol_result_code GOL_ERROR_MEMORY = 5) ∧
    (∀ rowOk2 : Nat → Bool, (∀ j : Nat, j < rows → rowOk2 j = true) →
      allocate_grid true rowOk2 rows cols =
        (GOL_SUCCESS, some (fun _ _ => CELL_DEAD), 1 + rows)) := by
  constructor
  · constructor
    · unfold allocate_grid
      rw [if_pos rfl]
      have hloop := alloc_rows_loop_fail rowOk rows i hi hfail 0 (by omega)
        (fun j _ h2 => hok j h2)
      rw [hloop]
    · rfl
  · intro rowOk2 hok2
    unfold allocate_grid
    rw [if_pos rfl]
    have hloop := alloc_rows_loop_ok rowOk2 rows hok2 0 (by omega)
    rw [hloop]

theorem claim_C1_step_rules_witness :
    1 < ctxBlinker.rows ∧ 1 < ctxBlinker.cols ∧ atRest ctxBlinker ∧
    (simulate_step ctxBlinker).grid 0 1 = CELL_ALIVE :=
  ⟨by decide, by decide, by decide,
    (claim_C1_step_rules ctxBlinker 0 1 (by decide) (by decide) (by decide)).1
      ⟨by decide, by decide⟩⟩

theorem claim_C2_count_neighbors_witness :
    1 < ctxBlinker.rows ∧ 1 < ctxBlinker.cols ∧
    ctxBlinker.rows ≤ INT_MAX ∧ ctxBlinker.cols ≤ INT_MAX ∧
    count_neighbors ctxBlinker 1 1 = spec_neighbor_count ctxBlinker 1 1 :=
  ⟨by decide, by decide, by decide, by decide,
    (claim_C2_count_neighbors ctxBlinker 1 1 (by decide) (by decide)
      (by decide) (by decide)).1⟩

theorem claim_C3_order_independent_witness :
    atRest ctxBlinker ∧ simulate_step ctxBlinker = reference_step ctxBlinker :=
  ⟨by decide, (claim_C3_order_independent ctxBlinker (by decide)).1⟩

theorem claim_C4_random_deterministic_witness :
    (⟨2, 2, fun _ _ => CELL_DEAD, ⟨2, 2, 0, 7, CONFIG_RANDOM⟩⟩ :
        gol_context_t).config.seed ≠ 0 ∧
    (initialize_grid_random id (fun s => (s, s + 1)) 5
        ⟨2, 2, fun _ _ => CELL_DEAD, ⟨2, 2, 0, 7, CONFIG_RANDOM⟩⟩).grid 0 0 =
      (initialize_grid_random id (fun s => (s, s + 1)) 9
        ⟨2, 2, fun _ _ => CELL_ALIVE, ⟨2, 2, 0, 7, CONFIG_RANDOM⟩⟩).grid 0 0 :=
  ⟨by decide,
    (claim_C4_random_deterministic id (fun s => (s, s + 1)) 5 9
      ⟨2, 2, fun _ _ => CELL_DEAD, ⟨2, 2, 0, 7, CONFIG_RANDOM⟩⟩
      ⟨2, 2, fun _ _ => CELL_ALIVE, ⟨2, 2, 0, 7, CONFIG_RANDOM⟩⟩
      rfl rfl rfl (by decide)).1 0 0 (by decide) (by decide)⟩

theorem claim_C5_manual_init_witness :
    ((initialize_grid_manual
        ⟨5, 5, fun _ _ => CELL_ALIVE, ⟨5, 5, 0, 1, CONFIG_MANUAL⟩⟩
        [String.toList "@grid", String.toList "00100", String.toList "00100",
          String.toList "00100", String.toList "00000",
          String.toList "00000"]).grid 0 2 = CELL_ALIVE ↔
      (((0 : Nat), (2 : Nat)) = (0, 2) ∨ ((0 : Nat), (2 : Nat)) = (1, 2) ∨
        ((0 : Nat), (2 : Nat)) = (2, 2))) :=
  claim_C5_manual_init.1
    ⟨5, 5, fun _ _ => CELL_ALIVE, ⟨5, 5, 0, 1, CONFIG_MANUAL⟩⟩
    rfl rfl 0 (by decide) 2 (by decide)

theorem claim_C6_mouse_toggle_witness :
    (9 : Int).natAbs ≤ 2 ^ 31 ∧ (17 : Int).natAbs ≤ 2 ^ 31 ∧
    ctxBlinker.rows ≤ INT_MAX ∧ ctxBlinker.cols ≤ INT_MAX ∧ atRest ctxBlinker ∧
    (handle_mouse_click ctxBlinker 9 17).grid 2 1 = CELL_ALIVE :=
  ⟨by decide, by decide, by decide, by decide, by decide,
    ((claim_C6_mouse_toggle ctxBlinker 9 17 (by decide) (by decide) (by decide)
        (by decide) (by decide)).1 2 1 (by decide) (by decide) (by decide)
      (by decide)).2.1 (by decide)⟩

theorem claim_C7_amended_witness :
    Event.quit ∈ [Event.quit] ∧
    (run_tick id (fun s => (s, s)) 0
      ⟨true, 0, ⟨1, 1, fun _ _ => CELL_DEAD, ⟨1, 1, 0, 1, CONFIG_MANUAL⟩⟩⟩
      [Event.quit]).running = false :=
  ⟨by simp,
    (claim_C7_amended id (fun s => (s, s)) 0
      ⟨true, 0, ⟨1, 1, fun _ _ => CELL_DEAD, ⟨1, 1, 0, 1, CONFIG_MANUAL⟩⟩⟩
      [Event.quit] (by simp)).1⟩

theorem claim_C8_alloc_no_leak_witness :
    (1 : Nat) < 3 ∧ (fun j : Nat => decide (j ≠ 1)) 1 = false ∧
    allocate_grid true (fun j : Nat => decide (j ≠ 1)) 3 2 =
      (GOL_ERROR_MEMORY, none, 0) :=
  ⟨by decide, by decide,
    ((claim_C8_alloc_no_leak (fun j : Nat => decide (j ≠ 1)) 3 2 1
      (by decide) (by decide)
      (fun j hj => by
        have hj0 : j = 0 := by omega
        subst hj0
        decide)).1).1⟩

theorem claim_C9_amended_witness :
    (String.toList "@steps 3").head? = some '@' ∧
    process_line 2 2 ⟨true, 0, fun _ _ => CELL_DEAD⟩ (String.toList "@steps 3") =
      ⟨true, 0, fun _ _ => CELL_DEAD⟩ :=
  ⟨by decide,
    (claim_C9_amended 2 2 ⟨true, 0, fun _ _ => CELL_DEAD⟩
      (String.toList "@steps 3") (by decide)).1 (by decide)⟩

theorem claim_C10_toggle_nonalive_witness :
    ctxDying.grid 0 0 ≠ CELL_ALIVE ∧
    (handle_mouse_click ctxDying 0 0).grid 0 0 = CELL_ALIVE :=
  ⟨by decide,
    ((claim_C10_toggle_nonalive ctxDying 0 0) 0 0 (by decide) (by decide)
      (by decide) (by decide)).1 (by decide)⟩
